import Mathlib

/-!
Verification of the await-to-tuple library: a shallow embedding of its
error-normalization class (`SafeError`, src/error.ts), its outcome-tuple
type (`SafeResult`, types.ts), its wrappers (`to`, `sync`, `cb`, core.ts)
and its combinators (`map`, `pipe`, `format`, `parse`, src/utils.ts),
together with proofs of the specified properties.

JavaScript strings are embedded as `List Char`; JavaScript runtime values
as the inductive `Val`, covering the value shapes the library's control
flow distinguishes (null, undefined, booleans, numbers, strings, host
`Error` instances, `SafeError` instances, plain objects with and without a
`message` property, and an object whose string conversion throws).
A fallible operation (a settled promise, or a thunk that returns or
throws) is `Except Val Val`: `.ok v` models fulfillment/return with `v`,
`.error e` models rejection/throw of `e`.
-/

/-- JavaScript strings, embedded as lists of characters. -/
abbrev JStr := List Char

/-- Conversion from Lean string literals to the embedded string type. -/
def str (s : String) : JStr := s.toList

/-- JavaScript runtime values, at the granularity the library inspects.
`vsafeErr m c k` is a `SafeError` instance with message `m`, `cause` slot
`c` and `code` slot `k` (absent properties are `vundefined`, matching
`options?.cause` / `options?.code` evaluating to `undefined`).
`verror m` is a host `Error` instance (not a `SafeError`) with message `m`.
`vobjWithMsg m` is a plain object carrying a `message` property (error-like
but not an `instanceof Error`). `vthrowToStr` is an object whose `String()`
conversion throws. -/
inductive Val : Type where
  | vnull : Val
  | vundefined : Val
  | vbool : Bool → Val
  | vnum : Int → Val
  | vstr : JStr → Val
  | verror : JStr → Val
  | vsafeErr : JStr → Val → Val → Val
  | vobjWithMsg : JStr → Val
  | vobjPlain : Val
  | vthrowToStr : Val
  deriving DecidableEq, Repr

/-- The host `String(value)` conversion; `none` models the conversion
throwing (possible for objects with a throwing `toString`). Plain objects
render as `"[object Object]"`. -/
def jsToString : Val → Option JStr
  | .vnull => some (str "null")
  | .vundefined => some (str "undefined")
  | .vbool b => some (str (cond b "true" "false"))
  | .vnum n => some (toString n).toList
  | .vstr s => some s
  | .verror m => some (str "Error: " ++ m)
  | .vsafeErr m _ _ => some (str "SafeError: " ++ m)
  | .vobjWithMsg _ => some (str "[object Object]")
  | .vobjPlain => some (str "[object Object]")
  | .vthrowToStr => none

/-- Embedding of `SafeError.from` (src/error.ts): an already-normalized
`SafeError` is returned as-is; an `Error` yields a `SafeError` with the
same message and the error as `cause`; a string yields a `SafeError` with
that message and no cause; anything else is rendered with `String(value)`
(falling back to `"Unknown error"` if that throws) and kept as `cause`. -/
def safeErrorFrom (value : Val) : Val :=
  match value with
  | .vsafeErr m c k => .vsafeErr m c k
  | .verror m => .vsafeErr m (.verror m) .vundefined
  | .vstr s => .vsafeErr s .vundefined .vundefined
  | v =>
    match jsToString v with
    | some m => .vsafeErr m v .vundefined
    | none => .vsafeErr (str "Unknown error") v .vundefined

/-- An optional caller-supplied error transformer (`ErrorTransformer<E>`),
a pure function from the raw failure value to the error placed in the
tuple. -/
abbrev Transformer := Option (Val → Val)

/-- The error-normalization step shared by `to`, `sync` and `cb`:
`errorTransformer ? errorTransformer(err) : SafeError.from(err)`. -/
def normalizeWith : Transformer → Val → Val
  | some t, e => t e
  | none, e => safeErrorFrom e

/-- JavaScript truthiness of an embedded value. -/
def truthy : Val → Bool
  | .vnull => false
  | .vundefined => false
  | .vbool b => b
  | .vnum n => decide (n ≠ 0)
  | .vstr s => decide (s ≠ [])
  | _ => true

/-- Recognizer for `SafeError` instances among embedded values. -/
def isSafeErrVal : Val → Bool
  | .vsafeErr _ _ _ => true
  | _ => false

/-- Message property of an error value, as read by `format`
(`err.message`); reading it off a non-error renders as `"undefined"` in
the template string. -/
def errMessage : Val → JStr
  | .vsafeErr m _ _ => m
  | .verror m => m
  | .vobjWithMsg m => m
  | _ => str "undefined"

/-- The outcome tuple `[ok, err, data]` of types.ts, embedded as a raw
three-slot record (the positional discriminated union flattened, so that
the slot invariants are provable statements rather than typing
assumptions). -/
structure SafeResult : Type where
  ok : Bool
  err : Val
  data : Val
  deriving DecidableEq, Repr

/-- Embedding of `to` (core.ts; exported alias `safeAwait`): awaits the settled promise; fulfillment
with `data` gives `[true, null, data]`, rejection with `err` gives
`[false, normalize(err), null]`. Totality of this definition reflects the
try/catch covering the whole body: no rejection escapes. -/
def safeAwait (promise : Except Val Val) (errorTransformer : Transformer) : SafeResult :=
  match promise with
  | .ok data => ⟨true, .vnull, data⟩
  | .error err => ⟨false, normalizeWith errorTransformer err, .vnull⟩

/-- Embedding of `sync` (core.ts): runs the thunk; a return gives
`[true, null, result]`, a throw gives `[false, normalize(err), null]`. -/
def sync (fn : Except Val Val) (errorTransformer : Transformer) : SafeResult :=
  match fn with
  | .ok result => ⟨true, .vnull, result⟩
  | .error err => ⟨false, normalizeWith errorTransformer err, .vnull⟩

/-- Observable behavior of an adapter passed to `cb`: it either throws
synchronously before invoking the callback (`throwsBefore ex`), or its
first invocation of the callback passes `(err, result)` (`calls err
result`), possibly followed by a synchronous throw after that first
invocation (`callsThenThrows err result ex`; the promise is already
resolved, so the later resolve in the catch block is ignored). -/
inductive CbBehavior : Type where
  | throwsBefore : Val → CbBehavior
  | calls : Val → Val → CbBehavior
  | callsThenThrows : Val → Val → Val → CbBehavior

/-- Embedding of `cb` (core.ts): a truthy callback error resolves to
`[false, normalize(err), null]`; a falsy one resolves to
`[true, null, result]`; a synchronous throw before the callback runs is
caught and resolves to `[false, normalize(ex), null]`; a throw after the
callback is absorbed because the promise is already settled. -/
def cb (fn : CbBehavior) (errorTransformer : Transformer) : SafeResult :=
  match fn with
  | .throwsBefore ex => ⟨false, normalizeWith errorTransformer ex, .vnull⟩
  | .calls err result =>
    if truthy err then ⟨false, normalizeWith errorTransformer err, .vnull⟩
    else ⟨true, .vnull, result⟩
  | .callsThenThrows err result _ =>
    if truthy err then ⟨false, normalizeWith errorTransformer err, .vnull⟩
    else ⟨true, .vnull, result⟩

/-- Embedding of `or` (src/utils.ts): the payload under a true flag, the
default otherwise. -/
def orDefault (result : SafeResult) (defaultValue : Val) : Val :=
  if result.ok then result.data else defaultValue

/-- Embedding of `map` (src/utils.ts): destructures `[ok, err, data]`; a
true flag gives the freshly built `[true, null, fn(data)]`, a false flag
gives the freshly built `[false, err, null]` (same `err` binding). -/
def map (result : SafeResult) (fn : Val → Val) : SafeResult :=
  if result.ok then ⟨true, .vnull, fn result.data⟩
  else ⟨false, result.err, .vnull⟩

/-- A pipeline step as consumed by `pipe`: feeding it the current value
yields either the fulfilled next value or the raw failure (a synchronous
throw and a rejection land in the same catch clause). -/
abbrev Step := Val → Except Val Val

/-- Embedding of `pipe` (src/utils.ts): the for-loop over `fns` threading
`current`, with the catch clause returning `[false, SafeError.from(err),
null]` at the first failure and `[true, null, current]` after the loop. -/
def pipe (initial : Val) (fns : List Step) : SafeResult :=
  match fns with
  | [] => ⟨true, .vnull, initial⟩
  | f :: rest =>
    match f initial with
    | .ok v => pipe v rest
    | .error err => ⟨false, safeErrorFrom err, .vnull⟩

/-- Instrumented variant of `pipe` that also records the (0-based) indices
of the steps it invokes, in invocation order, starting from `idx`. The
result component coincides with `pipe` (`pipeTrace_fst`). -/
def pipeTrace : List Step → Val → Nat → SafeResult × List Nat
  | [], current, _ => (⟨true, .vnull, current⟩, [])
  | f :: rest, current, idx =>
    match f current with
    | .ok v => ((pipeTrace rest v (idx + 1)).1, idx :: (pipeTrace rest v (idx + 1)).2)
    | .error err => (⟨false, safeErrorFrom err, .vnull⟩, [idx])

/-- Sequential composition of a list of steps without the tuple wrapping:
`.ok w` when every step succeeds on the value it receives (final value
`w`), `.error e` at the first failure. Used to phrase "the steps before
index K all succeed" in the short-circuit property. -/
def runAll : List Step → Val → Except Val Val
  | [], v => .ok v
  | f :: rest, v =>
    match f v with
    | .ok w => runAll rest w
    | .error e => .error e

/-- A tuple together with the identity of the array object that carries
it: `ref` is the allocation identifier of the backing array. Array
literals evaluate to a fresh allocation, so a function returning an array
literal returns a tuple whose `ref` is the allocator's fresh identifier,
never that of an argument. -/
structure TupleRef : Type where
  ref : Nat
  val : SafeResult
  deriving DecidableEq, Repr

/-- Allocation-aware embedding of `map`: both branches of the source
return an array literal (`[true, null, fn(data)]` / `[false, err, null]`),
so the returned tuple lives in a fresh allocation `fresh`, while its slots
are exactly those of the structural `map`. -/
def mapAlloc (result : TupleRef) (fn : Val → Val) (fresh : Nat) : TupleRef :=
  ⟨fresh, map result.val fn⟩

/-- Model of the host `JSON.stringify` escaping for one character inside a
string literal (only the two characters the encoder model escapes). -/
def jsonEscapeChar (c : Char) : JStr :=
  if c = '"' then ['\\', '"']
  else if c = '\\' then ['\\', '\\']
  else [c]

/-- Escaping of a whole string body for the `JSON.stringify` model. -/
def jsonEscape : JStr → JStr
  | [] => []
  | c :: rest => jsonEscapeChar c ++ jsonEscape rest

/-- Model of the host `JSON.stringify` followed by template-string
interpolation, restricted to the value shapes of `Val`: primitives encode
as JSON literals, a string is quoted and escaped, `undefined` stringifies
to `undefined` (the template renders the word), objects and errors encode
as object literals. `format` calls this on the success payload. -/
def jsonStringify : Val → JStr
  | .vnull => str "null"
  | .vundefined => str "undefined"
  | .vbool b => str (cond b "true" "false")
  | .vnum n => (toString n).toList
  | .vstr s => '"' :: (jsonEscape s ++ ['"'])
  | .verror _ => str "\x7b\x7d"
  | .vsafeErr _ _ _ => str "\x7b\x7d"
  | .vobjWithMsg m =>
    str "\x7b\x22message\x22:\x22" ++ jsonEscape m ++ str "\x22\x7d"
  | .vobjPlain => str "\x7b\x7d"
  | .vthrowToStr => str "\x7b\x7d"

/-- Digit-sequence accumulator for the `JSON.parse` model; fails on a
non-digit character. -/
def parseDigits : JStr → Nat → Option Nat
  | [], acc => some acc
  | c :: rest, acc =>
    if c.isDigit then parseDigits rest (acc * 10 + (c.toNat - 48)) else none

/-- Number parsing for the `JSON.parse` model: an optional minus sign
followed by a non-empty digit sequence. -/
def jsonParseNum (s : JStr) : Option Val :=
  match s with
  | '-' :: rest =>
    if rest = [] then none
    else (parseDigits rest 0).map (fun n => .vnum (-(n : Int)))
  | _ =>
    if s = [] then none
    else (parseDigits s 0).map (fun n => .vnum (n : Int))

/-- String-body parsing for the `JSON.parse` model: consumes characters up
to a closing quote that must end the input, undoing the escaping of
`jsonEscape`; fails if the quote is missing or input remains after it. -/
def jsonStrBody : JStr → Option JStr
  | [] => none
  | ['"'] => some []
  | '"' :: _ :: _ => none
  | ['\\'] => none
  | '\\' :: c :: rest => (jsonStrBody rest).map (fun b => c :: b)
  | c :: rest => (jsonStrBody rest).map (fun b => c :: b)

/-- Model of the host `JSON.parse` on the payload text, restricted to the
primitive layer encoded by `jsonStringify`: `none` models the parse
throwing on malformed input (for example the text `undefined`). -/
def jsonParse (s : JStr) : Option Val :=
  if s = str "null" then some .vnull
  else if s = str "true" then some (.vbool true)
  else if s = str "false" then some (.vbool false)
  else
    match s with
    | '"' :: rest => (jsonStrBody rest).map .vstr
    | _ => jsonParseNum s

/-- The literal success tag of the wire format: the characters of the
string `"[OK] data: "`. -/
def okTag : JStr := ['[', 'O', 'K', ']', ' ', 'd', 'a', 't', 'a', ':', ' ']

/-- The literal failure tag of the wire format: the characters of the
string `"[ERR] error: "`. -/
def errTag : JStr := ['[', 'E', 'R', 'R', ']', ' ', 'e', 'r', 'r', 'o', 'r', ':', ' ']

/-- tag spelling check: `okTag` is exactly the source literal. -/
theorem okTag_spelling : okTag = str "[OK] data: " := by decide

/-- tag spelling check: `errTag` is exactly the source literal. -/
theorem errTag_spelling : errTag = str "[ERR] error: " := by decide

/-- Embedding of `format` (src/utils.ts): a true flag renders
`"[OK] data: " + JSON.stringify(data)`, a false flag renders
`"[ERR] error: " + err.message`. -/
def format (result : SafeResult) : JStr :=
  if result.ok then okTag ++ jsonStringify result.data
  else errTag ++ errMessage result.err

/-- Embedding of `parse` (src/utils.ts): recognizes the two tags with
`startsWith`, slices off the tag, then either JSON-decodes the remainder
(success tag; a decode failure propagates, modeled as `none`) or builds a
fresh `SafeError` with the remainder as message and no cause or code
(failure tag); text with neither tag throws, modeled as `none`. -/
def parse (s : JStr) : Option SafeResult :=
  if okTag.isPrefixOf s then
    match jsonParse (s.drop okTag.length) with
    | some d => some ⟨true, .vnull, d⟩
    | none => none
  else if errTag.isPrefixOf s then
    some ⟨false, .vsafeErr (s.drop errTag.length) .vundefined .vundefined, .vnull⟩
  else none

/-- A list is a prefix (in the `isPrefixOf` sense) of itself followed by
anything. -/
theorem isPrefixOf_append_self (p s : JStr) : p.isPrefixOf (p ++ s) = true := by
  simp [List.isPrefixOf_iff_prefix]

/-- The success tag never starts a failure-tagged text: the tags differ at
their second character. -/
theorem okTag_not_isPrefixOf_errTag (m : JStr) :
    okTag.isPrefixOf (errTag ++ m) = false := rfl

/-- Every default-normalized error is a `SafeError` instance. -/
theorem safeErrorFrom_isSafeErr (e : Val) : isSafeErrVal (safeErrorFrom e) = true := by
  cases e <;> rfl

/-- A default-normalized error is never the `null` sentinel. -/
theorem safeErrorFrom_ne_vnull (e : Val) : safeErrorFrom e ≠ Val.vnull := by
  intro hc
  have h := safeErrorFrom_isSafeErr e
  rw [hc] at h
  simp [isSafeErrVal] at h

/-- The result component of the instrumented pipeline agrees with
`pipe`. -/
theorem pipeTrace_fst (fns : List Step) (v : Val) (i : Nat) :
    (pipeTrace fns v i).1 = pipe v fns := by
  induction fns generalizing v i with
  | nil => rfl
  | cons f rest ih => cases hf : f v <;> simp [pipeTrace, pipe, hf, ih]

/-- When every step succeeds, the instrumented pipeline returns the final
value and the full index interval starting at `i`. -/
theorem pipeTrace_ok (fns : List Step) (v w : Val) (i : Nat)
    (h : runAll fns v = Except.ok w) :
    pipeTrace fns v i = (⟨true, .vnull, w⟩, List.range' i fns.length) := by
  induction fns generalizing v i with
  | nil =>
    simp [runAll] at h
    subst h
    rfl
  | cons f rest ih =>
    cases hf : f v with
    | ok u =>
      have h' : runAll rest u = Except.ok w := by
        rw [runAll, hf] at h
        exact h
      simp [pipeTrace, hf, ih u (i + 1) h', List.range'_succ]
    | error e =>
      rw [runAll, hf] at h
      cases h

/-- When the steps before `fk` all succeed and `fk` fails on the value it
receives, the instrumented pipeline stops at `fk`: the result is the
failing tuple and the recorded indices are exactly the interval covering
the prefix and `fk`. -/
theorem pipeTrace_err (pre : List Step) (fk : Step) (post : List Step)
    (v w e : Val) (i : Nat)
    (h : runAll pre v = Except.ok w) (hk : fk w = Except.error e) :
    pipeTrace (pre ++ fk :: post) v i
      = (⟨false, safeErrorFrom e, .vnull⟩, List.range' i (pre.length + 1)) := by
  induction pre generalizing v i with
  | nil =>
    simp [runAll] at h
    subst h
    simp [pipeTrace, hk, List.range'_succ]
  | cons f rest ih =>
    cases hf : f v with
    | ok u =>
      have h' : runAll rest u = Except.ok w := by
        rw [runAll, hf] at h
        exact h
      simp [pipeTrace, hf, ih u (i + 1) h', List.range'_succ]
    | error e' =>
      rw [runAll, hf] at h
      cases h

/-- C1: steps passed to `pipe` are invoked strictly in order. If the step
at index K is the first to fail (the steps before it succeed on the values
they receive and it rejects or throws on the value it receives), then
exactly steps 0..K are invoked, in order, no later step is invoked, and
the result is `[false, SafeError.from(rawFailure), null]`; if no step
fails, every step is invoked, in order, and the result is
`[true, null, finalValue]` with the last step's value. -/
theorem pipe_short_circuit_and_order :
    (∀ (pre : List Step) (fk : Step) (post : List Step) (v0 vK e : Val),
      runAll pre v0 = Except.ok vK → fk vK = Except.error e →
      pipe v0 (pre ++ fk :: post) = ⟨false, safeErrorFrom e, .vnull⟩
        ∧ (pipeTrace (pre ++ fk :: post) v0 0).2 = List.range (pre.length + 1))
  ∧ (∀ (fns : List Step) (v0 vf : Val),
      runAll fns v0 = Except.ok vf →
      pipe v0 fns = ⟨true, .vnull, vf⟩
        ∧ (pipeTrace fns v0 0).2 = List.range fns.length) := by
  constructor
  · intro pre fk post v0 vK e h hk
    have ht := pipeTrace_err pre fk post v0 vK e 0 h hk
    refine ⟨ ?_, ?_⟩
    · rw [← pipeTrace_fst (pre ++ fk :: post) v0 0, ht]
    · rw [ht, List.range_eq_range']
  · intro fns v0 vf h
    have ht := pipeTrace_ok fns v0 vf 0 h
    refine ⟨ ?_, ?_⟩
    · rw [← pipeTrace_fst fns v0 0, ht]
    · rw [ht, List.range_eq_range']

/-- A concrete pipeline step for witnesses: adds one to a number. -/
def stepInc : Step := fun v =>
  match v with
  | .vnum n => .ok (.vnum (n + 1))
  | _ => .error (.verror (str "not a number"))

/-- A concrete failing pipeline step for witnesses: always throws
`Error("x")`. -/
def stepBoom : Step := fun _ => .error (.verror (str "x"))

/-- witness for C1 at the spec scenario `pipe(0, a=>a+1, throw x, c=>c+1)`:
the first step succeeds, the second throws, so the trace is `[0, 1]` and
the result is the normalized failure. -/
theorem pipe_short_circuit_and_order_witness :
    pipe (.vnum 0) ([stepInc] ++ stepBoom :: [stepInc])
        = ⟨false, safeErrorFrom (.verror (str "x")), .vnull⟩
      ∧ (pipeTrace ([stepInc] ++ stepBoom :: [stepInc]) (.vnum 0) 0).2
        = List.range ([stepInc].length + 1) :=
  pipe_short_circuit_and_order.1 [stepInc] stepBoom [stepInc]
    (.vnum 0) (.vnum 1) (.verror (str "x")) rfl rfl

/-- C10: `pipe` with zero steps succeeds with the initial value itself as
payload, with no failure. -/
theorem pipe_zero_steps (v : Val) : pipe v [] = ⟨true, .vnull, v⟩ := rfl

/-- C7: wrapping a successful operation with `to` (fulfilled promise) or
`sync` (returning thunk) yields `[true, null, V]` with the payload being
the value itself (no copying, no coercion), and a null error slot —
whatever the optional transformer is. -/
theorem wrap_success_identity :
    (∀ (v : Val) (tr : Transformer), safeAwait (Except.ok v) tr = ⟨true, .vnull, v⟩)
  ∧ (∀ (v : Val) (tr : Transformer), sync (Except.ok v) tr = ⟨true, .vnull, v⟩) :=
  ⟨fun _ _ => rfl, fun _ _ => rfl⟩

/-- C9: default normalization is identity-preserving on already-normalized
inputs — `SafeError.from` returns a `SafeError` argument itself unchanged —
and therefore idempotent on every value. -/
theorem normalization_idempotent :
    (∀ (m : JStr) (c k : Val), safeErrorFrom (.vsafeErr m c k) = .vsafeErr m c k)
  ∧ (∀ v : Val, safeErrorFrom (safeErrorFrom v) = safeErrorFrom v) := by
  refine ⟨fun m c k => rfl, fun v => ?_⟩
  cases v <;> rfl

/-- C4: the wrappers `to`, `sync` and `cb` absorb every failure of the
wrapped operation — a rejected promise, a throwing thunk, an adapter that
throws before (or after) the callback, or a callback reporting a truthy
error — and re-express it as the failing tuple
`[false, normalize(raw), null]` under the supplied transformer or default
normalization; the embedded wrappers are total functions into tuples, so
no exception or rejection ever escapes the wrapper boundary. -/
theorem wrappers_absorb_failures :
    (∀ (e : Val) (tr : Transformer),
      safeAwait (Except.error e) tr = ⟨false, normalizeWith tr e, .vnull⟩)
  ∧ (∀ (e : Val) (tr : Transformer),
      sync (Except.error e) tr = ⟨false, normalizeWith tr e, .vnull⟩)
  ∧ (∀ (e : Val) (tr : Transformer),
      cb (.throwsBefore e) tr = ⟨false, normalizeWith tr e, .vnull⟩)
  ∧ (∀ (e r : Val) (tr : Transformer), truthy e = true →
      cb (.calls e r) tr = ⟨false, normalizeWith tr e, .vnull⟩)
  ∧ (∀ (e r ex : Val) (tr : Transformer), truthy e = true →
      cb (.callsThenThrows e r ex) tr = ⟨false, normalizeWith tr e, .vnull⟩) := by
  refine ⟨fun _ _ => rfl, fun _ _ => rfl, fun _ _ => rfl, ?_, ?_⟩
  · intro e r tr h
    simp [cb, h]
  · intro e r ex tr h
    simp [cb, h]

/-- witness for C4: the callback reporting the truthy error
`Error("boom")` resolves to the failing tuple under default
normalization. -/
theorem wrappers_absorb_failures_witness :
    cb (.calls (.verror (str "boom")) .vundefined) none
      = ⟨false, normalizeWith none (.verror (str "boom")), .vnull⟩ :=
  wrappers_absorb_failures.2.2.2.1 (.verror (str "boom")) .vundefined none rfl

/-- C8: branch selection in `cb` is governed solely by the truthiness of
the callback's first argument: any falsy error value (null, undefined, 0,
false, the empty string) resolves to the success tuple carrying the second
argument, any truthy error value resolves to
`[false, normalize(err), null]`, and a synchronous throw of the adapter
before the callback also resolves to a normalized failing tuple rather
than rejecting. -/
theorem cb_branching :
    (∀ (e r : Val) (tr : Transformer), truthy e = false →
      cb (.calls e r) tr = ⟨true, .vnull, r⟩)
  ∧ (∀ (e r : Val) (tr : Transformer), truthy e = true →
      cb (.calls e r) tr = ⟨false, normalizeWith tr e, .vnull⟩)
  ∧ (∀ (ex : Val) (tr : Transformer),
      cb (.throwsBefore ex) tr = ⟨false, normalizeWith tr ex, .vnull⟩) := by
  refine ⟨?_, ?_, fun _ _ => rfl⟩
  · intro e r tr h
    simp [cb, h]
  · intro e r tr h
    simp [cb, h]

/-- witness for C8: the falsy error value `0` selects the success branch,
carrying the callback's second argument. -/
theorem cb_branching_witness :
    cb (.calls (.vnum 0) (.vstr (str "ok"))) none
      = ⟨true, .vnull, .vstr (str "ok")⟩ :=
  cb_branching.1 (.vnum 0) (.vstr (str "ok")) none (by decide)

/-- counterexample for C2: on a false-flag tuple, `map` does not return
the original tuple object — the source returns the array literal
`[false, err, null]`, a fresh allocation — so with the input tuple living
at allocation 0 and the allocator's next identifier being 1, the returned
tuple differs from the input (its backing array is new), even though its
slots are unchanged. -/
theorem map_not_same_tuple_counterexample :
    mapAlloc ⟨0, ⟨false, .vsafeErr (str "boom") .vundefined .vundefined, .vnull⟩⟩
        (fun v => v) 1
      ≠ ⟨0, ⟨false, .vsafeErr (str "boom") .vundefined .vundefined, .vnull⟩⟩ := by
  decide

/-- C2 (amended): for every false-flag tuple, `map` returns a false-flag
tuple with the same components — in particular the very same error value,
not a reconstruction of it — and a null data slot; for every true-flag
tuple `[true, null, v]` it returns `[true, null, fn(v)]`; but the returned
tuple is a newly constructed array, not the original tuple object: under
any fresh allocation identifier the returned tuple's allocation differs
from the input's while its slots are exactly those of `map`. -/
theorem map_components_amended :
    (∀ (e : Val) (fn : Val → Val), map ⟨false, e, .vnull⟩ fn = ⟨false, e, .vnull⟩)
  ∧ (∀ (v : Val) (fn : Val → Val), map ⟨true, .vnull, v⟩ fn = ⟨true, .vnull, fn v⟩)
  ∧ (∀ (t : TupleRef) (fn : Val → Val) (fresh : Nat), fresh ≠ t.ref →
      (mapAlloc t fn fresh).val = map t.val fn ∧ (mapAlloc t fn fresh).ref ≠ t.ref) :=
  ⟨fun _ _ => rfl, fun _ _ => rfl, fun _ _ _ h => ⟨rfl, h⟩⟩

/-- witness for C2 (amended), at the tuple of the counterexample: the
slots agree with `map` and the allocation is fresh. -/
theorem map_components_amended_witness :
    (mapAlloc ⟨0, ⟨false, .vsafeErr (str "boom") .vundefined .vundefined, .vnull⟩⟩
          (fun v => v) 1).val
        = map ⟨false, .vsafeErr (str "boom") .vundefined .vundefined, .vnull⟩ (fun v => v)
      ∧ (mapAlloc ⟨0, ⟨false, .vsafeErr (str "boom") .vundefined .vundefined, .vnull⟩⟩
          (fun v => v) 1).ref
        ≠ (⟨0, ⟨false, .vsafeErr (str "boom") .vundefined .vundefined, .vnull⟩⟩ : TupleRef).ref :=
  map_components_amended.2.2
    ⟨0, ⟨false, .vsafeErr (str "boom") .vundefined .vundefined, .vnull⟩⟩
    (fun v => v) 1 (by decide)

/-- counterexample for C3: the plain error-like object `{ message: "boom" }`
is not an `instanceof Error`, so `SafeError.from` falls through to the
`String(value)` branch and produces the message `"[object Object]"`,
not the object's own message `"boom"`. -/
theorem from_errorlike_object_counterexample :
    errMessage (safeErrorFrom (.vobjWithMsg (str "boom"))) ≠ str "boom" := by
  decide

/-- C3 (amended): default normalization preserves the message verbatim and
keeps the raw value as `cause` for instances of the host `Error` type; an
error-like plain object carrying a message is instead rendered with
`String(value)` — its message becomes `"[object Object]"` — though the
object itself is still kept as `cause`. -/
theorem from_error_instance_amended :
    (∀ m : JStr, safeErrorFrom (.verror m) = .vsafeErr m (.verror m) .vundefined)
  ∧ (∀ m : JStr, safeErrorFrom (.vobjWithMsg m)
      = .vsafeErr (str "[object Object]") (.vobjWithMsg m) .vundefined) :=
  ⟨fun _ => rfl, fun _ => rfl⟩

/-- C5: the textual round trip. For a success tuple whose payload the
JSON layer encodes losslessly (decoding its encoding returns it exactly),
`parse (format t)` reproduces the flag and the payload; for a failure
tuple carrying a `SafeError`, `parse (format t)` reproduces the flag and
the message verbatim, while the reconstructed error has no cause and no
code whatever the original carried. -/
theorem format_parse_round_trip :
    (∀ v : Val, jsonParse (jsonStringify v) = some v →
      parse (format ⟨true, .vnull, v⟩) = some ⟨true, .vnull, v⟩)
  ∧ (∀ (m : JStr) (c k : Val),
      parse (format ⟨false, .vsafeErr m c k, .vnull⟩)
        = some ⟨false, .vsafeErr m .vundefined .vundefined, .vnull⟩) := by
  constructor
  · intro v h
    show parse (okTag ++ jsonStringify v) = _
    simp [parse, isPrefixOf_append_self, List.drop_left, h]
  · intro m c k
    show parse (errTag ++ m) = _
    simp [parse, okTag_not_isPrefixOf_errTag, isPrefixOf_append_self, List.drop_left]

/-- witness for C5 at payload `true`: its JSON encoding decodes to itself
and the round trip reproduces the tuple. -/
theorem format_parse_round_trip_witness :
    parse (format ⟨true, .vnull, .vbool true⟩) = some ⟨true, .vnull, .vbool true⟩ :=
  format_parse_round_trip.1 (.vbool true) (by decide)

/-- The slot invariant exactly as the claim states it: the flag is true
iff the error slot is the empty sentinel, and the flag is false iff the
data slot is the empty sentinel. -/
def InvClaimed (t : SafeResult) : Prop :=
  (t.ok = true ↔ t.err = .vnull) ∧ (t.ok = false ↔ t.data = .vnull)

/-- The amended slot invariant: under default normalization the error slot
is the empty sentinel iff the flag is true, and a false flag forces an
empty data slot — but a true flag does not force a non-empty data slot,
because the success payload may itself be `null`. -/
def InvAmended (t : SafeResult) : Prop :=
  (t.err = .vnull ↔ t.ok = true) ∧ (t.ok = false → t.data = .vnull)

instance (t : SafeResult) : Decidable (InvClaimed t) :=
  inferInstanceAs (Decidable (_ ∧ _))

instance (t : SafeResult) : Decidable (InvAmended t) :=
  inferInstanceAs (Decidable (_ ∧ _))

/-- counterexample for C6: the ordinary call `sync(() => null)` yields the
tuple `[true, null, null]`, in which the data slot equals the empty
sentinel even though the flag is true — so "flag = false iff the data slot
is empty" fails. -/
theorem tuple_invariant_counterexample :
    ¬ InvClaimed (sync (Except.ok .vnull) none) := by
  decide

/-- C6 (amended): every tuple produced by the wrappers under default
normalization, by `pipe`, or by `parse` satisfies the amended invariant:
the error slot is null iff the flag is true, and a false flag has a null
data slot; `map` preserves this invariant. The original biconditional for
the data slot holds except when a success payload is itself null. -/
theorem tuple_invariant_amended :
    (∀ p : Except Val Val, InvAmended (safeAwait p none))
  ∧ (∀ f : Except Val Val, InvAmended (sync f none))
  ∧ (∀ b : CbBehavior, InvAmended (cb b none))
  ∧ (∀ (v : Val) (fns : List Step), InvAmended (pipe v fns))
  ∧ (∀ (s : JStr) (r : SafeResult), parse s = some r → InvAmended r)
  ∧ (∀ (t : SafeResult) (fn : Val → Val), InvAmended t → InvAmended (map t fn)) := by
  refine ⟨?_, ?_, ?_, ?_, ?_, ?_⟩
  · intro p
    cases p with
    | ok v => simp [InvAmended, safeAwait]
    | error e => simp [InvAmended, safeAwait, normalizeWith, safeErrorFrom_ne_vnull]
  · intro f
    cases f with
    | ok v => simp [InvAmended, sync]
    | error e => simp [InvAmended, sync, normalizeWith, safeErrorFrom_ne_vnull]
  · intro b
    cases b with
    | throwsBefore ex => simp [InvAmended, cb, normalizeWith, safeErrorFrom_ne_vnull]
    | calls e r =>
      cases he : truthy e <;>
        simp [InvAmended, cb, he, normalizeWith, safeErrorFrom_ne_vnull]
    | callsThenThrows e r ex =>
      cases he : truthy e <;>
        simp [InvAmended, cb, he, normalizeWith, safeErrorFrom_ne_vnull]
  · intro v fns
    induction fns generalizing v with
    | nil => simp [InvAmended, pipe]
    | cons f rest ih =>
      cases hf : f v with
      | ok u => simpa [pipe, hf] using ih u
      | error e => simp [InvAmended, pipe, hf, safeErrorFrom_ne_vnull]
  · intro s r h
    simp only [parse] at h
    split at h
    · split at h
      · injection h with h2
        subst h2
        simp [InvAmended]
      · exact Option.noConfusion h
    · split at h
      · injection h with h2
        subst h2
        simp [InvAmended]
      · exact Option.noConfusion h
  · intro t fn hI
    cases ht : t.ok with
    | true => simp [InvAmended, map, ht]
    | false =>
      have hne : t.err ≠ Val.vnull := by
        intro hc
        have h2 := hI.1.mp hc
        rw [ht] at h2
        exact Bool.noConfusion h2
      simp [InvAmended, map, ht, hne]

/-- witness for C6 (amended): `map` applied to a well-formed failing tuple
yields a tuple satisfying the amended invariant. -/
theorem tuple_invariant_amended_witness :
    InvAmended (map ⟨false, .vsafeErr (str "e") .vundefined .vundefined, .vnull⟩ (fun v => v)) :=
  tuple_invariant_amended.2.2.2.2.2
    ⟨false, .vsafeErr (str "e") .vundefined .vundefined, .vnull⟩ (fun v => v) (by decide)
